import Mathlib

/-!
# Verification of the Smart-Campus booking/scheduling subsystem

A shallow embedding of the Booking model (mongoose schema, pre-save hooks,
instance methods and the `findAvailableSlots` static) together with proofs
of the specification's claims about it.

Timestamps are modelled as `Int` milliseconds (JavaScript `Date` values
compare by their epoch-millisecond value).  Object ids are modelled as `Nat`.
The persisted collection of bookings is a `List Booking`; a mongoose
`findOne`/`find` query becomes a decidable filter over that list.
-/

namespace SmartCampus

/-- The booking status enum (schema field `status`,
`enum: ['pending', 'confirmed', 'cancelled', 'completed']`). -/
inductive Status where
  | pending
  | confirmed
  | cancelled
  | completed
deriving DecidableEq, Repr

/-- The recurrence frequency enum (schema field `recurring.frequency`,
`enum: ['daily', 'weekly', 'monthly']`). -/
inductive Frequency where
  | daily
  | weekly
  | monthly
deriving DecidableEq, Repr

/-- The `recurring` sub-document of the booking schema:
`isRecurring` (Boolean, default false), `frequency` and `endDate`
(each with a conditional `required` function). -/
structure Recurring where
  isRecurring : Bool
  frequency : Option Frequency
  endDate : Option Int
deriving DecidableEq, Repr

/-- A stored booking document.  Fields irrelevant to the verified claims
(cancellation metadata, notes, check-in/out) are omitted; the fields the
hooks and queries read are kept with their schema names. -/
structure Booking where
  id : Nat
  boardroom : Nat
  user : Nat
  startTime : Int
  endTime : Int
  purpose : String
  attendees : Int
  status : Status
  recurring : Recurring
deriving DecidableEq, Repr

/-- An available slot produced by `findAvailableSlots`
(`{ startTime, endTime }` objects pushed into `availableSlots`). -/
structure Slot where
  startTime : Int
  endTime : Int
deriving DecidableEq, Repr

/-- `status ∈ {pending, confirmed}`: the statuses the overlap hook and the
slot query treat as active (`status: { $in: ['pending', 'confirmed'] }`). -/
def activeB : Status → Bool
  | .pending => true
  | .confirmed => true
  | .cancelled => false
  | .completed => false

/-- Schema validation of the `recurring` sub-document: `frequency` and
`endDate` each carry `required: function() { return this.recurring.isRecurring; }`,
so validation demands their presence exactly when `isRecurring` is true;
mongoose never rejects a present optional field. -/
def recurringValidB (r : Recurring) : Bool :=
  (!r.isRecurring || r.frequency.isSome) && (!r.isRecurring || r.endDate.isSome)

/-- Schema-level document validation relevant to saves: `attendees` has
`min: 1`, `purpose` is a required (non-empty) string, and the `recurring`
sub-document's conditional `required` functions must hold. -/
def docValidB (b : Booking) : Bool :=
  decide (1 ≤ b.attendees) && !(b.purpose == "") && recurringValidB b.recurring

/-- The overlap query of the second pre-save hook:
`findOne({ boardroom: this.boardroom, _id: { $ne: this._id },
status: { $in: ['pending','confirmed'] },
$or: [{ startTime: { $lt: this.endTime }, endTime: { $gt: this.startTime } }] })`
returns a document iff this predicate holds of some stored booking. -/
def conflictExists (s : List Booking) (b : Booking) : Bool :=
  s.any fun x =>
    x.boardroom == b.boardroom && x.id != b.id && activeB x.status &&
      decide (x.startTime < b.endTime) && decide (x.endTime > b.startTime)

/-- Errors surfaced by the model's save path and by the spec-level
operations (spec section 7 lists the error kinds). -/
inductive SaveError where
  | validationFailed
  | invalidInterval
  | overlap
  | duplicateId
  | notFound
  | invalidRecurrence
deriving DecidableEq, Repr

instance : DecidableEq (Except SaveError (List Booking)) := fun a b =>
  match a, b with
  | .ok x, .ok y =>
    if h : x = y then .isTrue (by rw [h]) else .isFalse (by simp [h])
  | .error x, .error y =>
    if h : x = y then .isTrue (by rw [h]) else .isFalse (by simp [h])
  | .ok _, .error _ => .isFalse (fun h => Except.noConfusion h)
  | .error _, .ok _ => .isFalse (fun h => Except.noConfusion h)

/-- Saving a new document (`isNew` is true, so the overlap hook always
runs): schema validation, then the first pre-save hook
(`endTime <= startTime` rejects), then the overlap hook, then the insert
(a duplicate `_id` would be a key error at insert time). -/
def createOp (s : List Booking) (b : Booking) : Except SaveError (List Booking) :=
  if !docValidB b then .error .validationFailed
  else if decide (b.endTime ≤ b.startTime) then .error .invalidInterval
  else if conflictExists s b then .error .overlap
  else if s.any (fun x => x.id == b.id) then .error .duplicateId
  else .ok (s ++ [b])

/-- `this.isModified('startTime') || this.isModified('endTime')` for a
fetched-and-mutated document: mongoose marks a path modified exactly when
the assigned value differs from the stored one. -/
def timesModifiedB (old b' : Booking) : Bool :=
  b'.startTime != old.startTime || b'.endTime != old.endTime

/-- Saving a fetched document after mutating its fields (`_id` immutable):
validation and the interval hook always run; the overlap hook's body runs
only when `this.isNew || this.isModified('startTime') ||
this.isModified('endTime')`, i.e. here only when a time field changed. -/
def updateOp (s : List Booking) (b' : Booking) : Except SaveError (List Booking) :=
  match s.find? (fun x => x.id == b'.id) with
  | none => .error .notFound
  | some old =>
    if !docValidB b' then .error .validationFailed
    else if decide (b'.endTime ≤ b'.startTime) then .error .invalidInterval
    else if timesModifiedB old b' && conflictExists s b' then .error .overlap
    else .ok (s.map fun x => if x.id == b'.id then b' else x)

/-- Insert a booking into a list kept ascending by `startTime`
(insertion step of the `.sort({ startTime: 1 })` ordering). -/
def insertByStart (b : Booking) : List Booking → List Booking
  | [] => [b]
  | x :: xs =>
    if decide (b.startTime ≤ x.startTime) then b :: x :: xs
    else x :: insertByStart b xs

/-- Sort a list of bookings ascending by `startTime`
(the query's `.sort({ startTime: 1 })`). -/
def sortByStart (l : List Booking) : List Booking :=
  l.foldr insertByStart []

/-- The bookings query of `findAvailableSlots`:
`find({ boardroom, status: { $in: ['pending','confirmed'] },
startTime: { $gte: startOfDay }, endTime: { $lte: endOfDay } })
.sort({ startTime: 1 })` where `startOfDay` is the day anchor at
00:00:00.000 and `endOfDay` the anchor plus 23:59:59.999. -/
def fetchDayBookings (s : List Booking) (room : Nat) (dayAnchor : Int) : List Booking :=
  sortByStart (s.filter fun b =>
    b.boardroom == room && activeB b.status &&
      decide (dayAnchor ≤ b.startTime) && decide (b.endTime ≤ dayAnchor + 86399999))

/-- The three-disjunct slot test inside the `while` loop: a slot
`[currentTime, slotEnd)` conflicts with `booking` iff
`(currentTime >= booking.startTime && currentTime < booking.endTime) ||
(slotEnd > booking.startTime && slotEnd <= booking.endTime) ||
(currentTime <= booking.startTime && slotEnd >= booking.endTime)`. -/
def slotConflictB (currentTime slotEnd : Int) (b : Booking) : Bool :=
  (decide (currentTime ≥ b.startTime) && decide (currentTime < b.endTime)) ||
    (decide (slotEnd > b.startTime) && decide (slotEnd ≤ b.endTime)) ||
    (decide (currentTime ≤ b.startTime) && decide (slotEnd ≥ b.endTime))

/-- The candidate-slot walk (`while (currentTime < closeTime)` loop,
source lines 184-206), made total with an explicit fuel parameter: `none`
means the fuel ran out before the walk finished.  Each iteration computes
`slotEnd = currentTime + duration * 60000`, breaks when
`slotEnd > closeTime`, pushes the slot when no fetched booking conflicts,
and continues from `slotEnd`. -/
def slotsGo (bookings : List Booking) (closeTime d : Int) :
    Nat → Int → List Slot → Option (List Slot)
  | 0, _, _ => none
  | fuel + 1, currentTime, acc =>
    if decide (currentTime < closeTime) then
      if decide (currentTime + d * 60000 > closeTime) then some acc
      else
        slotsGo bookings closeTime d fuel (currentTime + d * 60000)
          (acc ++
            if bookings.any (slotConflictB currentTime (currentTime + d * 60000)) then []
            else [⟨currentTime, currentTime + d * 60000⟩])
    else some acc

/-- `findAvailableSlots(boardroomId, date, duration)` with the weekday
lookup and `"HH:MM"` parsing of the boardroom's operating hours
(source lines 160-181) abstracted to the already-parsed open/close hour
and minute for the requested day: `openTime`/`closeTime` are the day
anchor with those wall-clock values, exactly as `setHours` produces.
The walk is run with enough fuel for any duration of at least one
minute; `none` reports a walk that did not finish within the fuel. -/
def findAvailableSlots (s : List Booking) (room : Nat) (dayAnchor : Int)
    (openHour openMinute closeHour closeMinute d : Int) : Option (List Slot) :=
  let bookings := fetchDayBookings s room dayAnchor
  let openTime := dayAnchor + openHour * 3600000 + openMinute * 60000
  let closeTime := dayAnchor + closeHour * 3600000 + closeMinute * 60000
  slotsGo bookings closeTime d ((closeTime - openTime).toNat / 60000 + 1) openTime []

/-- A lifecycle transition error, carrying source and target
(spec: `InvalidTransition`, naming source and target). -/
inductive TransitionError where
  | invalidTransition (src tgt : Status)
deriving DecidableEq, Repr

/-- Modelled from the spec: the booking lifecycle transition table of
section 4.1 (`pending → confirmed | cancelled`,
`confirmed → completed | cancelled`, `cancelled`/`completed` terminal).
No transition operation exists in the source tree; only the status enum
is declared there. -/
def allowedTransition : Status → Status → Bool
  | .pending, .confirmed => true
  | .pending, .cancelled => true
  | .confirmed, .completed => true
  | .confirmed, .cancelled => true
  | _, _ => false

/-- Modelled from the spec: `transition(booking_id, target_status, ...)`
succeeds exactly for the table's rows and otherwise fails with
`InvalidTransition` naming source and target.  Stated over the status
alone; the remaining fields of the booking are untouched. -/
def transition (current target : Status) : Except TransitionError Status :=
  if allowedTransition current target then .ok target
  else .error (.invalidTransition current target)

/-- The millisecond step between consecutive occurrences of a recurrence.
Daily and weekly are fixed; the spec leaves the calendar-month policy for
`monthly` open, modelled here as a thirty-day step. -/
def occStep : Frequency → Int
  | .daily => 86400000
  | .weekly => 604800000
  | .monthly => 2592000000

/-- Modelled from the spec: the Recurrence Expander of section 4.4
(absent from the source tree; only the `recurring` schema fields are
declared).  It produces one occurrence per step from `baseStart`'s date
through `endDate` inclusive, each spanning the same time of day, and
fails with `InvalidRecurrence` when `endDate` is before `baseStart`'s
date (the date of a timestamp being its enclosing midnight). -/
def expand (f : Frequency) (baseStart baseEnd endDate : Int) :
    Except SaveError (List (Int × Int)) :=
  if decide (endDate < baseStart - baseStart % 86400000) then .error .invalidRecurrence
  else
    .ok (((List.range
        ((endDate - (baseStart - baseStart % 86400000)).toNat / (occStep f).toNat + 1)).map
      fun k => (baseStart + (k : Int) * occStep f, baseEnd + (k : Int) * occStep f)))

/-- Modelled from the spec: creating a recurring booking persists one
booking per occurrence, each created through the ordinary save path
(overlap hook included); in the `Except` monad the whole fold fails
without yielding any state as soon as one occurrence's save fails, which
is the spec's atomicity (no partial occurrences persisted).  `mkB` builds
the stored document for an occurrence interval. -/
def createRecurring (s : List Booking) (mkB : Int × Int → Booking)
    (occs : List (Int × Int)) : Except SaveError (List Booking) :=
  occs.foldlM (fun st occ => createOp st (mkB occ)) s

/-- Modelled from the spec: the full recurring-creation path, expanding
the recurrence descriptor and then persisting every occurrence. -/
def createRecurringFrom (s : List Booking) (mkB : Int × Int → Booking)
    (f : Frequency) (baseStart baseEnd endDate : Int) : Except SaveError (List Booking) :=
  match expand f baseStart baseEnd endDate with
  | .error e => .error e
  | .ok occs => createRecurring s mkB occs

/-- The non-overlap invariant of the spec (section 3): among the bookings
of one boardroom with status pending or confirmed, no two distinct
documents have intersecting half-open intervals. -/
def pairwiseOk (s : List Booking) : Prop :=
  ∀ a ∈ s, ∀ b ∈ s, a.id ≠ b.id → a.boardroom = b.boardroom →
    activeB a.status = true → activeB b.status = true →
    ¬(a.startTime < b.endTime ∧ a.endTime > b.startTime)

instance (s : List Booking) : Decidable (pairwiseOk s) := by
  unfold pairwiseOk
  infer_instance

/-- Stored documents have pairwise distinct `_id`s. -/
def idsNodup (s : List Booking) : Prop := (s.map Booking.id).Nodup

/-- States reachable from the empty collection by accepted creates and
accepted updates that respect the spec's lifecycle: an update never moves
a booking from an inactive status (cancelled/completed) back to an active
one, and never moves a booking to another boardroom without also
modifying its times (so that the overlap hook re-runs). -/
inductive GoodReach : List Booking → Prop where
  | nil : GoodReach []
  | create (s : List Booking) (b : Booking) (s' : List Booking) :
      GoodReach s → createOp s b = .ok s' → GoodReach s'
  | update (s : List Booking) (b' old : Booking) (s' : List Booking) :
      GoodReach s →
      s.find? (fun x => x.id == b'.id) = some old →
      (activeB b'.status = true → activeB old.status = true) →
      (b'.boardroom = old.boardroom ∨ timesModifiedB old b' = true) →
      updateOp s b' = .ok s' → GoodReach s'

/-! ## Concrete documents used by counterexamples and witnesses -/

/-- A one-hour pending booking on boardroom 0. -/
def bkA : Booking :=
  { id := 0, boardroom := 0, user := 0, startTime := 0, endTime := 3600000,
    purpose := "standup", attendees := 1, status := .pending,
    recurring := ⟨false, none, none⟩ }

/-- `bkA` after a status-only cancellation. -/
def bkACancelled : Booking := { bkA with status := .cancelled }

/-- A second booking occupying exactly `bkA`'s interval on the same room. -/
def bkB : Booking :=
  { id := 1, boardroom := 0, user := 1, startTime := 0, endTime := 3600000,
    purpose := "review", attendees := 2, status := .pending,
    recurring := ⟨false, none, none⟩ }

/-- `bkA` after a status-only reactivation to confirmed. -/
def bkAConfirmed : Booking := { bkA with status := .confirmed }

/-- A booking that starts exactly where `bkA` ends, on the same room. -/
def bkAbut : Booking :=
  { id := 2, boardroom := 0, user := 2, startTime := 3600000, endTime := 7200000,
    purpose := "retro", attendees := 4, status := .pending,
    recurring := ⟨false, none, none⟩ }

/-- A recurring sub-document with `isRecurring` false that nevertheless
carries both conditional fields. -/
def recStray : Recurring := ⟨false, some .daily, some 0⟩

/-- A confirmed booking that starts before midnight and ends at 11:00 of
the queried day: it intersects the day only partially. -/
def bkCross : Booking :=
  { id := 7, boardroom := 5, user := 0, startTime := -3600000, endTime := 39600000,
    purpose := "allnighter", attendees := 3, status := .confirmed,
    recurring := ⟨false, none, none⟩ }

/-- An existing confirmed booking occupying 09:00-10:00 of the second day. -/
def bkDay1 : Booking :=
  { id := 3, boardroom := 0, user := 0, startTime := 118800000, endTime := 122400000,
    purpose := "blocked", attendees := 1, status := .confirmed,
    recurring := ⟨false, none, none⟩ }

/-- The document built for each occurrence of the requested daily series. -/
def mkOcc : Int × Int → Booking := fun p =>
  { id := 100, boardroom := 0, user := 9, startTime := p.1, endTime := p.2,
    purpose := "series", attendees := 1, status := .pending,
    recurring := ⟨true, some .daily, some 172800000⟩ }

/-! ## Helper lemmas about the save path -/

theorem conflictExists_eq_false {s : List Booking} {b : Booking}
    (h : conflictExists s b = false) :
    ∀ x ∈ s, x.boardroom = b.boardroom → x.id ≠ b.id → activeB x.status = true →
      ¬(x.startTime < b.endTime ∧ x.endTime > b.startTime) := by
  intro x hx hroom hid hact hover
  unfold conflictExists at h
  rw [List.any_eq_false] at h
  have hx' := h x hx
  simp only [Bool.and_eq_true, beq_iff_eq, bne_iff_ne, decide_eq_true_eq] at hx'
  exact hx' ⟨⟨⟨⟨hroom, hid⟩, hact⟩, hover.1⟩, hover.2⟩

theorem conflictExists_of_mem {s : List Booking} {b x : Booking}
    (hx : x ∈ s) (hroom : x.boardroom = b.boardroom) (hid : x.id ≠ b.id)
    (hact : activeB x.status = true)
    (hover : x.startTime < b.endTime ∧ x.endTime > b.startTime) :
    conflictExists s b = true := by
  unfold conflictExists
  rw [List.any_eq_true]
  refine ⟨x, hx, ?_⟩
  simp only [Bool.and_eq_true, beq_iff_eq, bne_iff_ne, decide_eq_true_eq]
  exact ⟨⟨⟨⟨hroom, hid⟩, hact⟩, hover.1⟩, hover.2⟩

theorem conflictExists_mono {s t : List Booking} {b : Booking}
    (hsub : ∀ x ∈ s, x ∈ t) (h : conflictExists s b = true) :
    conflictExists t b = true := by
  unfold conflictExists at h ⊢
  rw [List.any_eq_true] at h ⊢
  obtain ⟨x, hx, hpx⟩ := h
  exact ⟨x, hsub x hx, hpx⟩

theorem createOp_ok {s : List Booking} {b : Booking} {s' : List Booking}
    (h : createOp s b = .ok s') :
    conflictExists s b = false ∧ (∀ x ∈ s, x.id ≠ b.id) ∧ s' = s ++ [b] := by
  unfold createOp at h
  split_ifs at h with h1 h2 h3 h4
  refine ⟨by simpa using h3, ?_, by injection h with h; exact h.symm⟩
  intro x hx hxe
  apply h4
  rw [List.any_eq_true]
  exact ⟨x, hx, by simp [hxe]⟩

theorem updateOp_eq_of_find {s : List Booking} {b' old : Booking}
    (hfind : s.find? (fun x => x.id == b'.id) = some old) :
    updateOp s b' =
      if !docValidB b' then .error .validationFailed
      else if decide (b'.endTime ≤ b'.startTime) then .error .invalidInterval
      else if timesModifiedB old b' && conflictExists s b' then .error .overlap
      else .ok (s.map fun x => if x.id == b'.id then b' else x) := by
  unfold updateOp
  rw [hfind]

theorem updateOp_ok {s : List Booking} {b' : Booking} {s' : List Booking} {old : Booking}
    (hfind : s.find? (fun x => x.id == b'.id) = some old)
    (h : updateOp s b' = .ok s') :
    (timesModifiedB old b' = false ∨ conflictExists s b' = false) ∧
      s' = s.map fun x => if x.id == b'.id then b' else x := by
  rw [updateOp_eq_of_find hfind] at h
  split_ifs at h with h1 h2 h3
  refine ⟨?_, by injection h with h; exact h.symm⟩
  have h3' : (timesModifiedB old b' && conflictExists s b') = false :=
    Bool.eq_false_iff.mpr h3
  rcases Bool.and_eq_false_iff.mp h3' with hh | hh
  · exact Or.inl hh
  · exact Or.inr hh

theorem timesModifiedB_false {old b' : Booking} (h : timesModifiedB old b' = false) :
    b'.startTime = old.startTime ∧ b'.endTime = old.endTime := by
  unfold timesModifiedB at h
  simp only [Bool.or_eq_false_iff, bne_eq_false_iff_eq] at h
  exact h

/-- Membership in the updated collection: an element of the mapped list is
either the new document or an untouched document of the old list whose id
differs from the new document's. -/
theorem mem_update_state {s : List Booking} {b' x : Booking}
    (hx : x ∈ s.map fun y => if y.id == b'.id then b' else y) :
    x = b' ∨ (x ∈ s ∧ x.id ≠ b'.id) := by
  rw [List.mem_map] at hx
  obtain ⟨z, hz, hzx⟩ := hx
  by_cases hid : z.id = b'.id
  · left
    rw [← hzx]
    simp [hid]
  · right
    have : x = z := by rw [← hzx]; simp [hid]
    rw [this]
    exact ⟨hz, hid⟩

/-! ## Preservation of the non-overlap invariant -/

theorem inv_create {s : List Booking} {b : Booking} {s' : List Booking}
    (hn : idsNodup s) (hp : pairwiseOk s) (h : createOp s b = .ok s') :
    idsNodup s' ∧ pairwiseOk s' := by
  obtain ⟨hconf, hfresh, rfl⟩ := createOp_ok h
  constructor
  · unfold idsNodup at hn ⊢
    rw [List.map_append, List.nodup_append]
    refine ⟨hn, List.nodup_singleton _, ?_⟩
    intro i hi hib
    simp only [List.map_cons, List.map_nil, List.mem_singleton] at hib
    subst hib
    rw [List.mem_map] at hi
    obtain ⟨x, hx, hxi⟩ := hi
    exact hfresh x hx hxi
  · intro a ha c hc hid hroom hacta hactc
    rcases List.mem_append.mp ha with ha | ha <;> rcases List.mem_append.mp hc with hc | hc
    · exact hp a ha c hc hid hroom hacta hactc
    · have hcb := List.mem_singleton.mp hc
      rw [hcb] at hid hroom ⊢
      exact conflictExists_eq_false hconf a ha hroom hid hacta
    · have hab := List.mem_singleton.mp ha
      rw [hab] at hid hroom ⊢
      intro hover
      exact conflictExists_eq_false hconf c hc hroom.symm (Ne.symm hid) hactc
        ⟨hover.2, hover.1⟩
    · exact absurd
        (congrArg Booking.id ((List.mem_singleton.mp ha).trans (List.mem_singleton.mp hc).symm))
        hid

theorem inv_update {s : List Booking} {b' old : Booking} {s' : List Booking}
    (hn : idsNodup s) (hp : pairwiseOk s)
    (hfind : s.find? (fun x => x.id == b'.id) = some old)
    (hres : activeB b'.status = true → activeB old.status = true)
    (hsafe : b'.boardroom = old.boardroom ∨ timesModifiedB old b' = true)
    (h : updateOp s b' = .ok s') :
    idsNodup s' ∧ pairwiseOk s' := by
  obtain ⟨hguard, rfl⟩ := updateOp_ok hfind h
  have holdmem : old ∈ s := List.mem_of_find?_eq_some hfind
  have holdid : old.id = b'.id := by
    have := List.find?_some hfind
    simpa using this
  have hids : ((s.map fun x => if x.id == b'.id then b' else x).map Booking.id) =
      s.map Booking.id := by
    rw [List.map_map]
    apply List.map_congr_left
    intro x hx
    by_cases hid : x.id = b'.id
    · simp [Function.comp, hid]
    · simp [Function.comp, hid]
  refine ⟨by unfold idsNodup at hn ⊢; rw [hids]; exact hn, ?_⟩
  -- the key fact: the new document does not overlap any untouched active
  -- document of the same room
  have hkey : ∀ x ∈ s, x.id ≠ b'.id → x.boardroom = b'.boardroom →
      activeB x.status = true → activeB b'.status = true →
      ¬(x.startTime < b'.endTime ∧ x.endTime > b'.startTime) := by
    intro x hx hid hroom hactx hactb hover
    rcases hguard with hmod | hconf
    · obtain ⟨hst, hen⟩ := timesModifiedB_false hmod
      have hroomold : b'.boardroom = old.boardroom := by
        rcases hsafe with hh | hh
        · exact hh
        · rw [hmod] at hh; exact absurd hh (by simp)
      have hidxold : x.id ≠ old.id := by rw [holdid]; exact hid
      obtain ⟨ho1, ho2⟩ := hover
      refine hp x hx old holdmem hidxold (hroom.trans hroomold) hactx (hres hactb) ⟨?_, ?_⟩
      · omega
      · omega
    · exact absurd (conflictExists_of_mem hx hroom hid hactx hover)
        (by rw [hconf]; simp)
  intro a ha c hc hid hroom hacta hactc
  rcases mem_update_state ha with ha' | ⟨ha', haid⟩ <;>
    rcases mem_update_state hc with hc' | ⟨hc', hcid⟩
  · subst ha' hc'
    exact absurd rfl hid
  · subst ha'
    intro hover
    exact hkey c hc' hcid hroom.symm hactc hacta ⟨hover.2, hover.1⟩
  · subst hc'
    exact hkey a ha' haid hroom hacta hactc
  · exact hp a ha' c hc' hid hroom hacta hactc

theorem goodReach_inv {s : List Booking} (h : GoodReach s) :
    idsNodup s ∧ pairwiseOk s := by
  induction h with
  | nil =>
    refine ⟨List.nodup_nil, ?_⟩
    intro a ha
    exact absurd ha (List.not_mem_nil a)
  | create s b s' _ hok ih => exact inv_create ih.1 ih.2 hok
  | update s b' old s' _ hfind hres hsafe hok ih =>
    exact inv_update ih.1 ih.2 hfind hres hsafe hok

/-! ## C1 -/

/-- C1 (counterexample): the model accepts this four-step sequence —
create `bkA`, cancel it by a status-only update, create `bkB` on the
freed interval, then reactivate `bkA` by another status-only update
(the overlap hook skips both status-only saves) — and the final state
has two pending/confirmed bookings of boardroom 0 with intersecting
half-open intervals, so the claimed invariant fails. -/
theorem c1_counterexample :
    createOp [] bkA = .ok [bkA] ∧
      updateOp [bkA] bkACancelled = .ok [bkACancelled] ∧
      createOp [bkACancelled] bkB = .ok [bkACancelled, bkB] ∧
      updateOp [bkACancelled, bkB] bkAConfirmed = .ok [bkAConfirmed, bkB] ∧
      ¬pairwiseOk [bkAConfirmed, bkB] :=
  ⟨rfl, rfl, rfl, rfl, by decide⟩

/-- C1 (amended): for every boardroom, after any sequence of accepted
creates and accepted updates in which no update moves a booking from
cancelled/completed back to pending/confirmed and no update moves a
booking to another boardroom without modifying its times, the bookings
with status pending or confirmed are pairwise non-overlapping under
half-open interval semantics. -/
theorem c1_theorem (s : List Booking) (h : GoodReach s) : pairwiseOk s :=
  (goodReach_inv h).2

/-- C1 witness: a concrete reachable state satisfying the invariant. -/
theorem c1_witness : pairwiseOk [bkA] :=
  c1_theorem [bkA] (GoodReach.create [] bkA [bkA] GoodReach.nil rfl)

/-! ## C10 -/

/-- C10: a save of an already-stored booking that changes neither
`startTime` nor `endTime` (for example a status-only or purpose-only
update) never fails with the overlap error, whatever conflicting
bookings exist: the overlap hook's body only runs when the document is
new or one of the time fields is modified. -/
theorem c10_theorem (s : List Booking) (b' old : Booking)
    (hfind : s.find? (fun x => x.id == b'.id) = some old)
    (hst : b'.startTime = old.startTime) (hen : b'.endTime = old.endTime) :
    updateOp s b' ≠ .error .overlap := by
  rw [updateOp_eq_of_find hfind]
  have hmod : timesModifiedB old b' = false := by
    unfold timesModifiedB
    simp [hst, hen]
  rw [hmod]
  split_ifs <;> simp_all

/-- C10 witness: reactivating `bkA` in a state where `bkB` occupies the
same interval is a status-only save, and indeed does not fail with the
overlap error. -/
theorem c10_witness :
    List.find? (fun x => x.id == bkAConfirmed.id) [bkACancelled, bkB] = some bkACancelled ∧
      bkAConfirmed.startTime = bkACancelled.startTime ∧
      bkAConfirmed.endTime = bkACancelled.endTime ∧
      updateOp [bkACancelled, bkB] bkAConfirmed ≠ .error .overlap :=
  ⟨rfl, rfl, rfl,
    c10_theorem [bkACancelled, bkB] bkAConfirmed bkACancelled rfl rfl rfl⟩

/-! ## C7 -/

/-- C7: creating a valid booking whose interval exactly abuts the stored
booking on the same boardroom (`N.startTime = E.endTime` or symmetrically
`N.endTime = E.startTime`) is not reported as an overlap: the overlap
query's inequalities are strict, so the save succeeds and appends the new
document. -/
theorem c7_theorem (E N : Booking)
    (hab : E.endTime = N.startTime ∨ N.endTime = E.startTime)
    (hval : docValidB N = true) (hint : N.startTime < N.endTime)
    (hid : N.id ≠ E.id) :
    createOp [E] N = .ok [E, N] := by
  have hconf : conflictExists [E] N = false := by
    unfold conflictExists
    rw [List.any_eq_false]
    intro x hx
    rw [List.mem_singleton] at hx
    subst hx
    simp only [Bool.and_eq_true, beq_iff_eq, bne_iff_ne, decide_eq_true_eq]
    rintro ⟨⟨⟨⟨-, -⟩, -⟩, hlt⟩, hgt⟩
    rcases hab with hh | hh <;> omega
  have hdup : ([E].any fun x => x.id == N.id) = false := by
    rw [List.any_eq_false]
    intro x hx
    rw [List.mem_singleton] at hx
    subst hx
    simp [Ne.symm hid]
  unfold createOp
  rw [hval, hconf, hdup]
  simp [not_le.mpr hint]

/-- C7 witness: a booking starting exactly where `bkA` ends is accepted. -/
theorem c7_witness :
    (bkA.endTime = bkAbut.startTime ∨ bkAbut.endTime = bkA.startTime) ∧
      docValidB bkAbut = true ∧ bkAbut.startTime < bkAbut.endTime ∧
      bkAbut.id ≠ bkA.id ∧ createOp [bkA] bkAbut = .ok [bkA, bkAbut] :=
  ⟨Or.inl rfl, rfl, by decide, by decide,
    c7_theorem bkA bkAbut (Or.inl rfl) rfl (by decide) (by decide)⟩

/-! ## C6 -/

/-- C6: for any slot `[t, t + d * 60000)` with positive duration `d` and
any booking whose interval satisfies `startTime < endTime`, the three-
disjunct availability test of `findAvailableSlots` holds exactly when the
half-open overlap rule `existing.start < slot.end ∧ existing.end > slot.start`
does. -/
theorem c6_theorem (b : Booking) (t d : Int) (hd : 0 < d)
    (hb : b.startTime < b.endTime) :
    slotConflictB t (t + d * 60000) b = true ↔
      (b.startTime < t + d * 60000 ∧ b.endTime > t) := by
  have hdm : (0 : Int) < d * 60000 := by positivity
  unfold slotConflictB
  simp only [Bool.or_eq_true, Bool.and_eq_true, decide_eq_true_eq]
  constructor
  · rintro ((⟨h1, h2⟩ | ⟨h1, h2⟩) | ⟨h1, h2⟩) <;> constructor <;> omega
  · rintro ⟨h1, h2⟩
    by_cases hcase : t ≥ b.startTime
    · exact Or.inl (Or.inl ⟨hcase, by omega⟩)
    · by_cases hcase2 : t + d * 60000 ≤ b.endTime
      · exact Or.inl (Or.inr ⟨by omega, hcase2⟩)
      · exact Or.inr ⟨by omega, by omega⟩

/-- C6 witness: a slot strictly inside a booking conflicts, as the overlap
rule demands. -/
theorem c6_witness :
    (0 : Int) < 60 ∧ bkA.startTime < bkA.endTime ∧
      (slotConflictB 0 (0 + 60 * 60000) bkA = true ↔
        (bkA.startTime < 0 + 60 * 60000 ∧ bkA.endTime > 0)) :=
  ⟨by decide, by decide, c6_theorem bkA 0 60 (by decide) (by decide)⟩

/-! ## C3 -/

/-- C3: from `pending` the transition to `confirmed` succeeds while the
direct jump to `completed` fails with `InvalidTransition`; the operations
the lifecycle permits are exactly pending→confirmed, pending→cancelled,
confirmed→completed and confirmed→cancelled, and `cancelled`/`completed`
admit no outgoing transition. -/
theorem c3_theorem :
    transition .pending .confirmed = .ok .confirmed ∧
      transition .pending .completed =
        .error (.invalidTransition .pending .completed) ∧
      (∀ s t : Status, transition s t = .ok t ↔
        ((s = .pending ∧ t = .confirmed) ∨ (s = .pending ∧ t = .cancelled) ∨
          (s = .confirmed ∧ t = .completed) ∨ (s = .confirmed ∧ t = .cancelled))) ∧
      (∀ t : Status,
        transition .cancelled t = .error (.invalidTransition .cancelled t) ∧
          transition .completed t = .error (.invalidTransition .completed t)) := by
  refine ⟨rfl, rfl, ?_, ?_⟩
  · intro s t
    cases s <;> cases t <;> simp [transition, allowedTransition]
  · intro t
    cases t <;> exact ⟨rfl, rfl⟩

/-! ## C9 -/

/-- C9 (counterexample): schema validation accepts a booking whose
recurrence descriptor has `isRecurring = false` and both conditional
fields present, so "present if and only if isRecurring" fails in the
only-if direction: nothing rejects the fields when `isRecurring` is
false. -/
theorem c9_counterexample :
    recurringValidB recStray = true ∧ recStray.isRecurring = false ∧
      recStray.frequency.isSome = true ∧ recStray.endDate.isSome = true := by
  decide

/-- C9 (amended): `frequency` and `endDate` are required — validation
fails when either is absent — exactly when `isRecurring` is true; when
`isRecurring` is false they are unconstrained and may be present. -/
theorem c9_theorem :
    (∀ r : Recurring, recurringValidB r = true → r.isRecurring = true →
        r.frequency.isSome = true ∧ r.endDate.isSome = true) ∧
      (∀ r : Recurring, r.isRecurring = true →
        (r.frequency.isSome = false ∨ r.endDate.isSome = false) →
        recurringValidB r = false) ∧
      recurringValidB recStray = true := by
  refine ⟨?_, ?_, by decide⟩
  · intro r hv hrec
    unfold recurringValidB at hv
    rw [hrec] at hv
    simpa using hv
  · intro r hrec habs
    unfold recurringValidB
    rw [hrec]
    rcases habs with hh | hh <;> simp [hh]

/-! ## C4 -/

/-- With a duration of at least one minute, every loop iteration moves
`currentTime` forward by at least one minute, so fuel proportional to the
remaining span suffices for the walk to finish. -/
theorem slotsGo_isSome (bookings : List Booking) (closeTime d : Int) (hd : 1 ≤ d) :
    ∀ fuel : Nat, ∀ currentTime : Int, ∀ acc : List Slot,
      (closeTime - currentTime).toNat < fuel * 60000 →
      (slotsGo bookings closeTime d fuel currentTime acc).isSome = true := by
  intro fuel
  induction fuel with
  | zero =>
    intro currentTime acc hlt
    exact absurd hlt (by simp)
  | succ n ih =>
    intro currentTime acc hlt
    unfold slotsGo
    by_cases hc : currentTime < closeTime
    · rw [if_pos (decide_eq_true hc)]
      by_cases he : currentTime + d * 60000 > closeTime
      · rw [if_pos (decide_eq_true he)]
        rfl
      · rw [if_neg (by simpa using he)]
        apply ih
        have hstep : (60000 : Int) ≤ d * 60000 := by nlinarith
        have hle : currentTime + d * 60000 ≤ closeTime := by omega
        omega
    · rw [if_neg (by simpa using hc)]
      rfl

/-- C4 (amended): for every collection of bookings, boardroom, day and
operating hours, and every duration of at least one minute,
`findAvailableSlots` terminates (its walk finishes within the allotted
fuel) and returns a finite slot list. -/
theorem c4_theorem (s : List Booking) (room : Nat)
    (dayAnchor openHour openMinute closeHour closeMinute d : Int) (hd : 1 ≤ d) :
    (findAvailableSlots s room dayAnchor openHour openMinute closeHour
      closeMinute d).isSome = true := by
  unfold findAvailableSlots
  apply slotsGo_isSome _ _ _ hd
  have := Nat.div_add_mod
    ((dayAnchor + closeHour * 3600000 + closeMinute * 60000 -
      (dayAnchor + openHour * 3600000 + openMinute * 60000)).toNat) 60000
  omega

/-- C4 witness: the walk finishes on the concrete 09:00-17:00 day with a
60 minute duration. -/
theorem c4_witness :
    (1 : Int) ≤ 60 ∧ (findAvailableSlots [] 0 0 9 0 17 0 60).isSome = true :=
  ⟨by decide, c4_theorem [] 0 0 9 0 17 0 60 (by decide)⟩

/-- With duration 0 the walk never advances: whatever the fuel, it runs
out before the loop condition can fail. -/
theorem slotsGo_zero_duration_none :
    ∀ fuel : Nat, ∀ acc : List Slot,
      slotsGo [] 61200000 0 fuel 32400000 acc = none := by
  intro fuel
  induction fuel with
  | zero => intro acc; rfl
  | succ n ih =>
    intro acc
    unfold slotsGo
    rw [if_pos (by decide), if_neg (by decide)]
    exact ih _

/-- C4 (counterexample): on a boardroom open 09:00-17:00 with no bookings
and the duration value 0, no amount of fuel makes the candidate-slot walk
finish — the loop body leaves `currentTime` unchanged, so
`findAvailableSlots` does not terminate for every duration value. -/
theorem c4_counterexample :
    ¬∃ fuel : Nat, (slotsGo [] 61200000 0 fuel 32400000 []).isSome = true := by
  rintro ⟨fuel, h⟩
  rw [slotsGo_zero_duration_none fuel []] at h
  exact absurd h (by decide)

/-! ## C5 -/

/-- C5: on a boardroom open 09:00-17:00 with no bookings, a 60 minute
request returns exactly the eight slots 09:00-10:00 through 16:00-17:00
in chronological order (times in milliseconds from the day anchor). -/
theorem c5_theorem :
    findAvailableSlots [] 0 0 9 0 17 0 60 =
      some [⟨32400000, 36000000⟩, ⟨36000000, 39600000⟩, ⟨39600000, 43200000⟩,
        ⟨43200000, 46800000⟩, ⟨46800000, 50400000⟩, ⟨50400000, 54000000⟩,
        ⟨54000000, 57600000⟩, ⟨57600000, 61200000⟩] := by
  decide

/-! ## C8 -/

theorem mem_insertByStart {b x : Booking} :
    ∀ l : List Booking, x ∈ insertByStart b l ↔ x = b ∨ x ∈ l := by
  intro l
  induction l with
  | nil => simp [insertByStart]
  | cons y ys ih =>
    unfold insertByStart
    split_ifs with hle
    · simp [List.mem_cons]
    · simp only [List.mem_cons, ih]
      tauto

theorem mem_sortByStart {x : Booking} :
    ∀ l : List Booking, x ∈ sortByStart l ↔ x ∈ l := by
  intro l
  induction l with
  | nil => simp [sortByStart]
  | cons y ys ih =>
    unfold sortByStart at ih ⊢
    rw [List.foldr_cons, mem_insertByStart, ih, List.mem_cons]

/-- C8 (counterexample): `bkCross` is active and partially inside the
queried day (it covers 09:00-11:00 of it), yet the slot query — which
demands `startTime ≥ day-start` and `endTime ≤ day-end` — does not fetch
it, and `findAvailableSlots` consequently offers the 09:00-10:00 slot
that `bkCross` covers. -/
theorem c8_counterexample :
    activeB bkCross.status = true ∧
      bkCross.endTime > 0 ∧ bkCross.startTime < 86399999 ∧
      fetchDayBookings [bkCross] 5 0 = [] ∧
      findAvailableSlots [bkCross] 5 0 9 0 17 0 60 =
        some [⟨32400000, 36000000⟩, ⟨36000000, 39600000⟩, ⟨39600000, 43200000⟩,
          ⟨43200000, 46800000⟩, ⟨46800000, 50400000⟩, ⟨50400000, 54000000⟩,
          ⟨54000000, 57600000⟩, ⟨57600000, 61200000⟩] := by
  decide

/-- C8 (amended): the slot computation fetches exactly the active
(pending/confirmed) bookings of the resource lying wholly within
[day-start, day-end] — `startTime ≥ day-start` and `endTime ≤ day-end` —
so a booking that only partially intersects the day is not fetched and
does not block the slots it covers. -/
theorem c8_theorem (s : List Booking) (room : Nat) (dayAnchor : Int) (b : Booking) :
    b ∈ fetchDayBookings s room dayAnchor ↔
      (b ∈ s ∧ b.boardroom = room ∧ activeB b.status = true ∧
        dayAnchor ≤ b.startTime ∧ b.endTime ≤ dayAnchor + 86399999) := by
  unfold fetchDayBookings
  rw [mem_sortByStart, List.mem_filter]
  simp only [Bool.and_eq_true, beq_iff_eq, decide_eq_true_eq]
  tauto

/-! ## C2 -/

/-- If some occurrence conflicts with an active booking of the original
state, the occurrence-by-occurrence creation fold fails: every successful
intermediate create only appends, so the original bookings stay in scope
for the overlap check, and the conflicting occurrence's save (or an
earlier one) is rejected. -/
theorem createRecurring_error {s : List Booking} {mkB : Int × Int → Booking} :
    ∀ occs : List (Int × Int), ∀ st : List Booking,
      (∀ x ∈ s, x ∈ st) →
      (∃ occ ∈ occs, conflictExists s (mkB occ) = true) →
      ∃ e, createRecurring st mkB occs = .error e := by
  intro occs
  induction occs with
  | nil =>
    intro st hsub hconf
    obtain ⟨occ, hocc, -⟩ := hconf
    exact absurd hocc (List.not_mem_nil occ)
  | cons o os ih =>
    intro st hsub hconf
    obtain ⟨occ, hocc, hc⟩ := hconf
    unfold createRecurring at ih ⊢
    rw [List.foldlM_cons]
    cases hcr : createOp st (mkB o) with
    | error e => exact ⟨e, rfl⟩
    | ok st' =>
      obtain ⟨hcfalse, -, hst'⟩ := createOp_ok hcr
      rcases List.mem_cons.mp hocc with rfl | hos
      · have : conflictExists st (mkB occ) = true := conflictExists_mono hsub hc
        rw [this] at hcfalse
        exact absurd hcfalse (by decide)
      · refine ih st' ?_ ⟨occ, hos, hc⟩
        intro x hx
        rw [hst']
        exact List.mem_append.mpr (Or.inl (hsub x hx))

/-- C2: when a recurring creation is requested, the Recurrence Expander
produces the occurrence intervals and each one is saved through the
overlap-checked create path; if any produced occurrence conflicts with an
existing pending/confirmed booking, the entire creation fails with an
error — in this model an error yields no resulting state at all, so no
occurrence is persisted and the caller's state is unchanged. -/
theorem c2_theorem (s : List Booking) (mkB : Int × Int → Booking)
    (f : Frequency) (baseStart baseEnd endDate : Int) (occs : List (Int × Int))
    (hex : expand f baseStart baseEnd endDate = .ok occs)
    (hconf : ∃ occ ∈ occs, conflictExists s (mkB occ) = true) :
    ∃ e, createRecurringFrom s mkB f baseStart baseEnd endDate = .error e := by
  unfold createRecurringFrom
  rw [hex]
  exact createRecurring_error occs s (fun x hx => hx) hconf

/-- C2 witness: the spec's concrete scenario — a daily recurrence
09:00-10:00 from day 0 through day 2 expands to three occurrences, the
middle one conflicts with `bkDay1`, and the whole creation errors. -/
theorem c2_witness :
    expand .daily 32400000 36000000 172800000 =
        .ok [(32400000, 36000000), (118800000, 122400000), (205200000, 208800000)] ∧
      (∃ occ ∈ [((32400000 : Int), (36000000 : Int)), (118800000, 122400000),
          (205200000, 208800000)], conflictExists [bkDay1] (mkOcc occ) = true) ∧
      ∃ e, createRecurringFrom [bkDay1] mkOcc .daily 32400000 36000000 172800000 =
        .error e :=
  ⟨rfl, by decide,
    c2_theorem [bkDay1] mkOcc .daily 32400000 36000000 172800000
      [(32400000, 36000000), (118800000, 122400000), (205200000, 208800000)]
      rfl (by decide)⟩

end SmartCampus

